import Mathlib

/-!
Verification of the proxy-pool request dispatcher of the Booru-Crawling
repository, shallowly embedded from `src/utils/proxyhandler.py` and the
chunked download loop of `src/danbooru_post_download.py`.

Timestamps are rationals (Python floats hold epoch seconds; the claims only
involve exact arithmetic on them).  The HTTP layer is an oracle function
from request URL to outcome; the `requests` library and the remote gateways
are outside the repository.
-/

namespace BooruCrawl

/-- Epoch times and durations, as exact rationals. -/
abbrev Time := ℚ

/-- The `_commit_time` mapping (a `ThreadSafeDict` keyed by proxy index).
Modelled as an association list where the most recent write is at the head;
`lookup` returns the most recent binding, matching dict semantics. -/
abbrev Ledger := List (Nat × Time)

/-- Model of `self._commit_time.get(idx, 0.0)`. -/
def Ledger.getT (l : Ledger) (i : Nat) : Time :=
  (l.lookup i).getD 0

/-- Model of `self._commit_time[idx] = t`. -/
def Ledger.setT (l : Ledger) (i : Nat) (t : Time) : Ledger :=
  (i, t) :: l

/-- Result of one `_wait_until_allowed` call: how long the caller slept,
the time at which it passed the gate (this is the `_now()` recorded after
the sleep), and the updated ledger. -/
structure WaitResult where
  sleepTime : Time
  passTime : Time
  ledger : Ledger
deriving DecidableEq

/-- Model of `_wait_until_allowed` (proxyhandler.py lines 257-267), entered
at time `now`:
reads `last_commit = commit_time.get(idx, 0.0)`, sleeps for
`max (last_commit + wait_time - now) 0`, then stores the wake time. -/
def waitUntilAllowed (l : Ledger) (waitTime : Time) (idx : Nat) (now : Time) :
    WaitResult :=
  let lastCommit := l.getT idx
  let untilT := lastCommit + waitTime
  let remaining := untilT - now
  let sleepTime := if 0 < remaining then remaining else 0
  let passTime := now + sleepTime
  { sleepTime := sleepTime, passTime := passTime,
    ledger := l.setT idx passTime }

/-- Model of `_punish_proxy` (proxyhandler.py lines 298-302), executed at
time `now`: `self._commit_time[idx] = _now() + self._timeout`. -/
def punishProxy (l : Ledger) (timeout : Time) (idx : Nat) (now : Time) :
    Ledger :=
  l.setT idx (now + timeout)

/-- The mutable fields of a `ProxyHandler` instance together with its
immutable configuration. -/
structure Handler where
  proxies : List String
  commitTime : Ledger
  currentIndex : Int
  waitTime : Time
  timeout : Time
deriving DecidableEq

/-- Model of `_next_proxy_index` (proxyhandler.py lines 251-255):
`self._current_index = (self._current_index + 1) % len(self._proxies)`.
Int.emod agrees with the Python `%` operator for a positive modulus.
The increment and the read happen under `self._index_lock`, so the whole
function is one atomic step. -/
def nextProxyIndex (h : Handler) : Int × Handler :=
  let newIdx := (h.currentIndex + 1) % (h.proxies.length : Int)
  (newIdx, { h with currentIndex := newIdx })

/-- The fields of a gateway `requests.Response` that the dispatcher reads.
`gwJson` is the result of `resp.json()` together with the
`int(payload.get("status_code", 0))` conversion: `none` models a body that
is not JSON or a status_code field that does not convert (both raise and
are suppressed).  `contentLength` is `headers.get("Content-Length")`
converted by `int`, `none` when absent or non-numeric.  `contentLen` is
`len(resp.content)`. -/
structure GwPayload where
  statusCode : Int
  success : Bool
  response : Option String
deriving DecidableEq

structure Resp where
  statusCode : Nat
  text : String
  gwJson : Option GwPayload
  contentLength : Option Int
  contentLen : Nat
deriving DecidableEq

/-- What `self._session.get(url, timeout=...)` does for one URL: either
raises a transport-level exception or returns a response.  The HTTP call is
treated as instantaneous in the time model. -/
inductive NetOutcome where
  | exc (msg : String)
  | resp (r : Resp)
deriving DecidableEq

/-- The network oracle: full request URL to outcome. -/
abbrev Net := String → NetOutcome

/-- Bookkeeping threaded out of every dispatcher operation: the handler
state after the call, the URLs actually requested (in order), and the time
slept at the pacing gate. -/
structure ReqState where
  handler : Handler
  calls : List String
  sleepTime : Time
deriving DecidableEq

/-- Python exceptions that could escape a dispatcher operation.  In the
code every path guards or suppresses them, so the operations below always
return `Except.ok`; the channel exists so that the absence of a raised
error is part of each statement. -/
inductive PyExc where
  | poolExhausted
  | runtimeErr (msg : String)
deriving DecidableEq

/-- Model of `_request_through_proxy` (proxyhandler.py lines 269-296),
entered at time `now`.  Returns `(resp, idx)` on success, `none` if the
pool is empty, the HTTP call raised, or the gateway answered 429; in the
latter two cases the selected index is punished.  Exactly the URLs in
`calls` are requested. -/
def requestThroughProxy (h : Handler) (net : Net) (now : Time)
    (path : String) : Option (Resp × Nat) × ReqState :=
  if h.proxies.isEmpty then
    (none, { handler := h, calls := [], sleepTime := 0 })
  else
    let pick := nextProxyIndex h
    let idx := pick.1.toNat
    let h1 := pick.2
    let w := waitUntilAllowed h1.commitTime h1.waitTime idx now
    let h2 := { h1 with commitTime := w.ledger }
    let url := h2.proxies.getD idx "" ++ path
    match net url with
    | .exc _ =>
        (none,
         { handler :=
             { h2 with
               commitTime := punishProxy h2.commitTime h2.timeout idx w.passTime },
           calls := [url], sleepTime := w.sleepTime })
    | .resp r =>
        if r.statusCode = 429 then
          (none,
           { handler :=
               { h2 with
                 commitTime := punishProxy h2.commitTime h2.timeout idx w.passTime },
             calls := [url], sleepTime := w.sleepTime })
        else
          (some (r, idx),
           { handler := h2, calls := [url], sleepTime := w.sleepTime })

/-- External collaborators of the dispatcher: the network, the
`urllib.parse.quote_plus` percent-encoder (library code, kept abstract),
and `json.loads` restricted to its success or raise behaviour (`J` is the
type of decoded JSON values). -/
structure Env (J : Type) where
  net : Net
  qp : String → String
  jsonDecode : String → Option J

/-- Model of `get_response` (proxyhandler.py lines 122-159).  The returned
value is `Sum.inl` for a JSON-decoded body, `Sum.inr` for the plain-text
fallback.  A 429 reported inside the payload (upstream rate limit) punishes
the index before the success flag is inspected. -/
def getResponseOp {J : Type} (env : Env J) (h : Handler) (now : Time)
    (targetUrl : String) : Except PyExc (Option (J ⊕ String)) × ReqState :=
  let path := "get_response?url=" ++ env.qp targetUrl
  let call := requestThroughProxy h env.net now path
  let st := call.2
  match call.1 with
  | none => (.ok none, st)
  | some (resp, idx) =>
    match resp.gwJson with
    | none => (.ok none, st)
    | some payload =>
      let st' :=
        if payload.statusCode = 429 then
          { st with handler :=
              { st.handler with
                commitTime :=
                  punishProxy st.handler.commitTime st.handler.timeout idx
                    (now + st.sleepTime) } }
        else st
      if payload.success then
        match payload.response with
        | none => (.ok none, st')
        | some txt =>
          match env.jsonDecode txt with
          | some j => (.ok (some (Sum.inl j)), st')
          | none => (.ok (some (Sum.inr txt)), st')
      else (.ok none, st')

/-- Model of `get` (proxyhandler.py lines 161-170): raw streaming GET,
`result[0] if result is not None else None`. -/
def getOp {J : Type} (env : Env J) (h : Handler) (now : Time)
    (targetUrl : String) : Except PyExc (Option Resp) × ReqState :=
  let path := "get_response_raw?url=" ++ env.qp targetUrl
  let call := requestThroughProxy h env.net now path
  (.ok (call.1.map Prod.fst), call.2)

/-- Parse a run of ASCII digits possibly separated by single underscores,
as Python `int` accepts between digits; `acc` is the value of the digits
already consumed.  Rejects a leading, trailing or doubled underscore. -/
def pyDigitsAux (acc : Nat) : List Char → Option Nat
  | [] => some acc
  | '_' :: d :: rest =>
      if d.isDigit then pyDigitsAux (acc * 10 + (d.toNat - 48)) rest
      else none
  | '_' :: [] => none
  | d :: rest =>
      if d.isDigit then pyDigitsAux (acc * 10 + (d.toNat - 48)) rest
      else none

/-- Nonempty digit run starting with a digit (no leading underscore). -/
def pyDigits : List Char → Option Nat
  | [] => none
  | d :: rest =>
      if d.isDigit then pyDigitsAux (d.toNat - 48) rest else none

/-- Drop leading whitespace characters. -/
def dropWs (l : List Char) : List Char :=
  l.dropWhile Char.isWhitespace

/-- Model of Python `str.strip()` on the character list. -/
def pyStripList (l : List Char) : List Char :=
  ((dropWs ((dropWs l).reverse)).reverse)

/-- Model of Python `str.strip()`. -/
def pyStrip (s : String) : String :=
  String.mk (pyStripList s.data)

/-- Model of Python `int(s)` on a string: optional surrounding whitespace,
optional sign, then ASCII digits with optional single grouping
underscores.  `none` models the ValueError raise. -/
def pyIntOfString (s : String) : Option Int :=
  match pyStripList s.data with
  | '+' :: rest => (pyDigits rest).map Int.ofNat
  | '-' :: rest => (pyDigits rest).map (fun n => -(Int.ofNat n))
  | l => (pyDigits l).map Int.ofNat

/-- Model of `filesize` (proxyhandler.py lines 172-188): accepts gateway
status 200 or 206 and parses `resp.text.strip()` with `int`, the
ValueError being suppressed into a `None` return. -/
def filesizeOp {J : Type} (env : Env J) (h : Handler) (now : Time)
    (targetUrl : String) : Except PyExc (Option Int) × ReqState :=
  let path := "file_size?url=" ++ env.qp targetUrl
  let call := requestThroughProxy h env.net now path
  let st := call.2
  match call.1 with
  | none => (.ok none, st)
  | some (resp, _) =>
    if resp.statusCode = 200 ∨ resp.statusCode = 206 then
      (.ok (pyIntOfString (pyStrip resp.text)), st)
    else (.ok none, st)

/-- Model of `get_filepart` (proxyhandler.py lines 190-199). -/
def getFilepartOp {J : Type} (env : Env J) (h : Handler) (now : Time)
    (targetUrl : String) (startB endB : Int) :
    Except PyExc (Option Resp) × ReqState :=
  let path := "filepart?url=" ++ env.qp targetUrl ++ "&start=" ++
    toString startB ++ "&end=" ++ toString endB
  let call := requestThroughProxy h env.net now path
  (.ok (call.1.map Prod.fst), call.2)

/-- The character suffix after the first occurrence of `//`, if any;
models `s.split("//", 1)[-1]` when composed with the fallback below. -/
def afterDoubleSlash : List Char → Option (List Char)
  | '/' :: '/' :: rest => some rest
  | _ :: rest => afterDoubleSlash rest
  | [] => none

/-- Model of Python `proxy.split("//", 1)[-1]`: everything after the first
`//`, or the whole string when none occurs. -/
def pySplitDoubleSlashLast (s : String) : String :=
  match afterDoubleSlash s.data with
  | some rest => String.mk rest
  | none => s

/-- Normalisation of one proxy entry, as in the body of `_load_proxy_list`
(proxyhandler.py lines 241-247): prepend the scheme when absent, append
`:port` when the authority has no colon, ensure a trailing slash. -/
def normalizeProxy (port : Nat) (proxy : String) : String :=
  let p1 := if proxy.data.take 4 = "http".data then proxy
            else "http://" ++ proxy
  let p2 := if (pySplitDoubleSlashLast p1).data.contains ':' then p1
            else p1 ++ ":" ++ toString port
  if p2.data.getLast? = some '/' then p2 else p2 ++ "/"

/-- Model of `_load_proxy_list` (proxyhandler.py lines 231-249) applied to
the list of raw lines of the file: strip each line, skip empty ones,
normalise the rest. -/
def loadProxyList (lines : List String) (port : Nat) : List String :=
  lines.filterMap (fun raw =>
    let proxy := pyStrip raw
    if proxy = "" then none else some (normalizeProxy port proxy))

/-- Iterated round-robin advance: the handler after `k` calls of
`_next_proxy_index`. -/
def advanceTimes (h : Handler) : Nat → Handler
  | 0 => h
  | k + 1 => (nextProxyIndex (advanceTimes h k)).2

/-- The index returned by the `(k+1)`-th call of `_next_proxy_index`
(counting from `k = 0`). -/
def nthAdvanceIndex (h : Handler) (k : Nat) : Int :=
  (nextProxyIndex (advanceTimes h k)).1

/-- A freshly constructed handler over a given pool: `_current_index`
starts at `-1` (proxyhandler.py line 113). -/
def freshHandler (proxies : List String) (waitTime timeout : Time) : Handler :=
  { proxies := proxies, commitTime := [], currentIndex := -1,
    waitTime := waitTime, timeout := timeout }

/-- One health probe of a proxy base URL: `arrival` is the delay before
the gateway answers, `outcome` is `none` for a connection-level error and
`some status` otherwise.  `requests` raises a timeout error when the
response does not arrive within the `timeout=5` bound. -/
structure Probe where
  arrival : Time
  outcome : Option Nat
deriving DecidableEq

/-- Model of `_check_single` (proxyhandler.py lines 304-312): bare GET on
the base URL of proxy `i` with `timeout=5`; healthy iff status 200 or 206. -/
def checkSingle (net : Nat → Probe) (i : Nat) : Bool × Option String :=
  let p := net i
  if 5 < p.arrival then (false, some "timed out")
  else
    match p.outcome with
    | none => (false, some "connection error")
    | some s =>
        if s = 200 ∨ s = 206 then (true, none)
        else (false, some ("status " ++ toString s))

/-- The two `RuntimeError` raises of `check` (proxyhandler.py lines
223-226). -/
inductive CheckError where
  | proxiesNotWorking (failed : List Nat)
  | noProxiesAvailable
deriving DecidableEq

/-- Model of `for idx in sorted(failed, reverse=True): del self._proxies[idx]`
for a `failed` list given in ascending order. -/
def removeDescending (ps : List String) (failedAsc : List Nat) : List String :=
  failedAsc.reverse.foldl (fun acc i => acc.eraseIdx i) ps

/-- Model of `check` (proxyhandler.py lines 201-227).  The thread pool
collects one `(ok, err)` result per index; the completion order only
affects log lines, so the failed list is taken in ascending index order.
Returns the pool contents after the batch removal together with either the
failed list or the raised error. -/
def check (ps : List String) (net : Nat → Probe) (raiseExc : Bool) :
    List String × Except CheckError (List Nat) :=
  let failed := (List.range ps.length).filter
    (fun i => !(checkSingle net i).1)
  let ps' := removeDescending ps failed
  if raiseExc ∧ failed ≠ [] then (ps', .error (.proxiesNotWorking failed))
  else if ps'.isEmpty then (ps', .error .noProxiesAvailable)
  else (ps', .ok failed)

/-!
Chunked download model, from the split branch of `download_post` in
`src/danbooru_post_download.py` (lines 190-228).  The destination file is
opened with mode `wb` (truncating), so its final length is the number of
bytes written in this call.
-/

/-- What one `get_filepart(url, start, stop)` attempt yields for the
coordinator: `none` when the dispatcher returned no result. -/
structure PartResp where
  statusCode : Nat
  contentLength : Option Int
  contentLen : Nat
deriving DecidableEq

/-- Oracle for ranged fetches: inclusive byte range and attempt number to
response. -/
abbrev PartNet := Nat → Nat → Nat → Option PartResp

/-- The chunk list `datas`: `[(i, min(filesize, i + split_size)) for i in
range(0, filesize, split_size)]`. -/
def mkChunks (filesize splitSize : Nat) : List (Nat × Nat) :=
  (List.range ((filesize + splitSize - 1) / splitSize)).map
    (fun k => (k * splitSize, min filesize (k * splitSize + splitSize)))

/-- The retry loop of one chunk (danbooru_post_download.py lines 205-215):
up to `maxRetry` attempts, breaking on the first response whose status is
200 or 206; afterwards `file_response` holds the response of the last
attempt made (or `prev` if no attempt ran). -/
def retryLoop (attempt : Nat → Option PartResp) (prev : Option PartResp) :
    Nat → Nat → Option PartResp
  | _, 0 => prev
  | i, budget + 1 =>
      match attempt i with
      | none => retryLoop attempt none (i + 1) budget
      | some resp =>
          if resp.statusCode = 200 ∨ resp.statusCode = 206 then some resp
          else retryLoop attempt (some resp) (i + 1) budget

/-- How one `download_post` call ended. -/
inductive DlOutcome where
  | aborted
  | removedMismatch
  | completed
deriving DecidableEq

/-- Result of the split download: the outcome, the length of the
destination file afterwards (`none` when it was removed), and the chunks
appended, each with the response that passed verification. -/
structure DlResult where
  outcome : DlOutcome
  diskLen : Option Nat
  appended : List ((Nat × Nat) × PartResp)
deriving DecidableEq

/-- The per-chunk loop (danbooru_post_download.py lines 202-228).  A chunk
`(s, e)` below `current_filesize` is skipped; otherwise the retry loop
fetches range `(s, e - 1)`, the post-loop guards reject a missing response
or a status other than 200, the Content-Length header is converted with
`int` (absence raises TypeError, caught by the enclosing handler, ending
the call) and compared against `e - s`, and only then is the content
appended.  After the loop the assembled size is compared with `filesize`
and the file removed on mismatch. -/
def chunkLoop (net : PartNet) (maxRetry filesize currentFilesize : Nat) :
    List (Nat × Nat) → Nat → List ((Nat × Nat) × PartResp) → DlResult
  | [], written, app =>
      if written ≠ filesize then
        { outcome := .removedMismatch, diskLen := none, appended := app }
      else
        { outcome := .completed, diskLen := some written, appended := app }
  | (s, e) :: rest, written, app =>
      if s < currentFilesize then
        chunkLoop net maxRetry filesize currentFilesize rest written app
      else
        match retryLoop (net s (e - 1)) none 0 maxRetry with
        | none => { outcome := .aborted, diskLen := some written, appended := app }
        | some resp =>
            if resp.statusCode ≠ 200 then
              { outcome := .aborted, diskLen := some written, appended := app }
            else
              match resp.contentLength with
              | none =>
                  { outcome := .aborted, diskLen := some written, appended := app }
              | some cl =>
                  if cl ≠ ((e - s : Nat) : Int) then
                    { outcome := .aborted, diskLen := some written,
                      appended := app }
                  else
                    chunkLoop net maxRetry filesize currentFilesize rest
                      (written + resp.contentLen) (app ++ [((s, e), resp)])

/-- The whole split branch: build the chunk list, read the length of any
partial file on disk, then run the loop with an empty (truncated)
destination. -/
def downloadSplit (net : PartNet) (maxRetry filesize splitSize : Nat)
    (existingLen : Option Nat) : DlResult :=
  chunkLoop net maxRetry filesize (existingLen.getD 0)
    (mkChunks filesize splitSize) 0 []

/-!
Interleaving model for `_wait_until_allowed` (claim C9).  The code does
three observable actions for one index: an atomic ledger read (one
`ThreadSafeDict.get`), a sleep, and an atomic ledger write (one
`ThreadSafeDict.__setitem__`).  No lock spans the read and the write.  Two
threads, both holding index 0, are interleaved by an explicit schedule;
the global clock advances only when a thread finishes sleeping.
-/

/-- The program counter of one thread running `_wait_until_allowed(0)`. -/
inductive WPc where
  | start
  | sleeping (wake : Time)
  | committing
  | done (passT : Time)
deriving DecidableEq

/-- The shared state of the two-thread system. -/
structure Sys where
  ledger : Ledger
  clock : Time
  tA : WPc
  tB : WPc
deriving DecidableEq

/-- One atomic action of a thread at program counter `pc`. -/
def stepThread (waitTime : Time) (ledger : Ledger) (clock : Time) :
    WPc → WPc × Ledger × Time
  | .start =>
      let lastCommit := ledger.getT 0
      let remaining := lastCommit + waitTime - clock
      if 0 < remaining then (.sleeping (clock + remaining), ledger, clock)
      else (.committing, ledger, clock)
  | .sleeping wake =>
      (.committing, ledger, if clock < wake then wake else clock)
  | .committing => (.done clock, ledger.setT 0 clock, clock)
  | .done t => (.done t, ledger, clock)

/-- Run a schedule: `true` steps thread A, `false` steps thread B. -/
def runSched (waitTime : Time) : List Bool → Sys → Sys
  | [], s => s
  | c :: cs, s =>
      if c then
        let r := stepThread waitTime s.ledger s.clock s.tA
        runSched waitTime cs { s with tA := r.1, ledger := r.2.1, clock := r.2.2 }
      else
        let r := stepThread waitTime s.ledger s.clock s.tB
        runSched waitTime cs { s with tB := r.1, ledger := r.2.1, clock := r.2.2 }

/-- Two `_next_proxy_index` calls from threads A and B; the lock makes
each call one atomic action, so an interleaving is just an order. -/
def runTwoNext (aFirst : Bool) (h : Handler) : Int × Int × Handler :=
  if aFirst then
    let a := nextProxyIndex h
    let b := nextProxyIndex a.2
    (a.1, b.1, b.2)
  else
    let b := nextProxyIndex h
    let a := nextProxyIndex b.2
    (a.1, b.1, a.2)

/-!
Helper abbreviations for the dispatch path: the index `_next_proxy_index`
will select from a given handler state, the pacing-gate result for it, and
the full URL requested. -/

/-- The index selected by the next `_next_proxy_index` call. -/
def selectedIdx (h : Handler) : Nat :=
  ((h.currentIndex + 1) % (h.proxies.length : Int)).toNat

/-- The pacing-gate result for the selected index, entering at `now`. -/
def selectedWait (h : Handler) (now : Time) : WaitResult :=
  waitUntilAllowed h.commitTime h.waitTime (selectedIdx h) now

/-- The URL `_request_through_proxy` sends the GET to. -/
def requestUrl (h : Handler) (path : String) : String :=
  h.proxies.getD (selectedIdx h) "" ++ path

/-- A transport-level exception or a gateway-level 429 on one URL. -/
def gatewayFailsAt (net : Net) (u : String) : Prop :=
  (∃ m, net u = .exc m) ∨ (∃ r, net u = .resp r ∧ r.statusCode = 429)

lemma rtp_fail (h : Handler) (net : Net) (now : Time) (path : String)
    (hne : h.proxies ≠ []) (hbad : gatewayFailsAt net (requestUrl h path)) :
    (requestThroughProxy h net now path).1 = none ∧
    (requestThroughProxy h net now path).2.calls = [requestUrl h path] ∧
    Ledger.getT (requestThroughProxy h net now path).2.handler.commitTime
        (selectedIdx h) = (selectedWait h now).passTime + h.timeout := by
  have hemp : h.proxies.isEmpty = false := by
    simpa [List.isEmpty_iff] using hne
  rcases hbad with ⟨m, hm⟩ | ⟨r, hr, h429⟩
  · have hm' : net (h.proxies.getD
        ((h.currentIndex + 1) % (h.proxies.length : Int)).toNat "" ++ path)
        = .exc m := hm
    simp only [requestThroughProxy, hemp, Bool.false_eq_true, if_false,
      nextProxyIndex]
    rw [hm']
    simp [punishProxy, Ledger.getT, Ledger.setT, selectedIdx, selectedWait,
      waitUntilAllowed, requestUrl]
  · have hr' : net (h.proxies.getD
        ((h.currentIndex + 1) % (h.proxies.length : Int)).toNat "" ++ path)
        = .resp r := hr
    simp only [requestThroughProxy, hemp, Bool.false_eq_true, if_false,
      nextProxyIndex]
    rw [hr']
    simp [h429, punishProxy, Ledger.getT, Ledger.setT, selectedIdx,
      selectedWait, waitUntilAllowed, requestUrl]

lemma rtp_ok (h : Handler) (net : Net) (now : Time) (path : String)
    (r : Resp) (hne : h.proxies ≠ [])
    (hr : net (requestUrl h path) = .resp r) (h429 : r.statusCode ≠ 429) :
    requestThroughProxy h net now path =
      (some (r, selectedIdx h),
       { handler :=
           { h with
             currentIndex := (h.currentIndex + 1) % (h.proxies.length : Int),
             commitTime := (selectedWait h now).ledger },
         calls := [requestUrl h path],
         sleepTime := (selectedWait h now).sleepTime }) := by
  have hemp : h.proxies.isEmpty = false := by
    simpa [List.isEmpty_iff] using hne
  have hr' : net (h.proxies.getD
      ((h.currentIndex + 1) % (h.proxies.length : Int)).toNat "" ++ path)
      = .resp r := hr
  simp only [requestThroughProxy, hemp, Bool.false_eq_true, if_false,
    nextProxyIndex]
  rw [hr']
  simp [h429, selectedIdx, selectedWait, requestUrl]

lemma rtp_empty (h : Handler) (net : Net) (now : Time) (path : String)
    (hempty : h.proxies = []) :
    requestThroughProxy h net now path =
      (none, { handler := h, calls := [], sleepTime := 0 }) := by
  simp [requestThroughProxy, hempty]

/-- Failure outcome shared by the four dispatcher operations: no result,
exactly one HTTP request issued, and the selected index punished (its
commit entry moved to the gate-pass time plus the configured timeout). -/
def punishedNoResult {α : Type} (h : Handler) (now : Time)
    (out : Except PyExc (Option α) × ReqState) : Prop :=
  out.1 = .ok none ∧ out.2.calls.length = 1 ∧
  Ledger.getT out.2.handler.commitTime (selectedIdx h) =
    (selectedWait h now).passTime + h.timeout

/-- C3: for every proxy index and prior ledger state, `_punish_proxy` sets
the commit entry of that index to exactly `now + timeout`, overriding any
earlier value unconditionally, and a `_wait_until_allowed` on that index
issued immediately afterwards sleeps for at least `timeout`, even when the
wait interval is smaller than the timeout. -/
theorem punish_overrides_and_blocks (l : Ledger) (waitTime timeout : Time)
    (idx : Nat) (now : Time) (hw : 0 ≤ waitTime) :
    Ledger.getT (punishProxy l timeout idx now) idx = now + timeout ∧
    timeout ≤
      (waitUntilAllowed (punishProxy l timeout idx now) waitTime idx now).sleepTime := by
  constructor
  · simp [punishProxy, Ledger.getT, Ledger.setT]
  · simp only [waitUntilAllowed, punishProxy, Ledger.getT, Ledger.setT,
      List.lookup, beq_self_eq_true, Option.getD_some]
    split
    · linarith
    · linarith

/-- Witness for C3 at a concrete ledger, timeout 10 and wait interval
1/10. -/
theorem punish_overrides_and_blocks_witness :
    Ledger.getT (punishProxy [(0, 3)] 10 0 5) 0 = 5 + 10 ∧
    (10 : Time) ≤
      (waitUntilAllowed (punishProxy [(0, 3)] 10 0 5) (1/10) 0 5).sleepTime :=
  punish_overrides_and_blocks [(0, 3)] (1/10) 10 0 5 (by norm_num)

/-- C1: for every target URL and each of the four dispatcher operations,
a transport-level exception from the HTTP call to the selected proxy, or
an HTTP 429 from the gateway itself, makes the operation punish the
selected index and return no result, with exactly one HTTP request issued
(no internal retry). -/
theorem gateway_failure_punishes_and_returns_none {J : Type} (env : Env J)
    (h : Handler) (now : Time) (targetUrl : String) (startB endB : Int)
    (hne : h.proxies ≠ [])
    (hbad : ∀ path, gatewayFailsAt env.net (requestUrl h path)) :
    punishedNoResult h now (getResponseOp env h now targetUrl) ∧
    punishedNoResult h now (getOp env h now targetUrl) ∧
    punishedNoResult h now (filesizeOp env h now targetUrl) ∧
    punishedNoResult h now (getFilepartOp env h now targetUrl startB endB) := by
  refine ⟨?_, ?_, ?_, ?_⟩
  · obtain ⟨h1, h2, h3⟩ :=
      rtp_fail h env.net now ("get_response?url=" ++ env.qp targetUrl) hne
        (hbad _)
    simp only [punishedNoResult, getResponseOp, h1]
    exact ⟨by simp, by rw [h2]; rfl, h3⟩
  · obtain ⟨h1, h2, h3⟩ :=
      rtp_fail h env.net now ("get_response_raw?url=" ++ env.qp targetUrl) hne
        (hbad _)
    simp only [punishedNoResult, getOp, h1]
    exact ⟨by simp, by rw [h2]; rfl, h3⟩
  · obtain ⟨h1, h2, h3⟩ :=
      rtp_fail h env.net now ("file_size?url=" ++ env.qp targetUrl) hne
        (hbad _)
    simp only [punishedNoResult, filesizeOp, h1]
    exact ⟨by simp, by rw [h2]; rfl, h3⟩
  · obtain ⟨h1, h2, h3⟩ :=
      rtp_fail h env.net now
        ("filepart?url=" ++ env.qp targetUrl ++ "&start=" ++ toString startB ++
          "&end=" ++ toString endB) hne (hbad _)
    simp only [punishedNoResult, getFilepartOp, h1]
    exact ⟨by simp, by rw [h2]; rfl, h3⟩

/-- A one-proxy handler used by concrete instances. -/
def cHandler : Handler :=
  { proxies := ["http://10.0.0.1:8000/"], commitTime := [],
    currentIndex := -1, waitTime := 1/10, timeout := 10 }

/-- An environment whose network refuses every connection. -/
def refusingEnv : Env Unit :=
  { net := fun _ => .exc "connection refused", qp := id,
    jsonDecode := fun _ => none }

/-- Witness for C1: a refused connection on a one-proxy pool. -/
theorem gateway_failure_punishes_witness :
    (["http://10.0.0.1:8000/"] : List String) ≠ [] ∧
    punishedNoResult cHandler 0 (getResponseOp refusingEnv cHandler 0 "t") ∧
    punishedNoResult cHandler 0 (getOp refusingEnv cHandler 0 "t") ∧
    punishedNoResult cHandler 0 (filesizeOp refusingEnv cHandler 0 "t") ∧
    punishedNoResult cHandler 0 (getFilepartOp refusingEnv cHandler 0 "t" 0 999) :=
  ⟨by decide,
   gateway_failure_punishes_and_returns_none refusingEnv cHandler 0 "t" 0 999
     (by decide) (fun _ => Or.inl ⟨"connection refused", rfl⟩)⟩

/-- A handler whose pool has been emptied (as a health check that removed
every proxy leaves it). -/
def emptyPoolHandler : Handler :=
  { proxies := [], commitTime := [], currentIndex := -1, waitTime := 1/10,
    timeout := 10 }

/-- C7 counterexample: with an empty pool, every one of the four dispatcher
operations returns an ordinary no-result (`Except.ok none`) without issuing
a request and without raising anything, because `_request_through_proxy`
starts with `if not self._proxies: return None`.  The claim says the
operation fails with a pool-exhausted error surfaced to the caller; the
computed value refutes that at this concrete input. -/
theorem empty_pool_no_error_counterexample :
    (getResponseOp refusingEnv emptyPoolHandler 0 "t").1 = .ok none ∧
    (getOp refusingEnv emptyPoolHandler 0 "t").1 = .ok none ∧
    (filesizeOp refusingEnv emptyPoolHandler 0 "t").1 = .ok none ∧
    (getFilepartOp refusingEnv emptyPoolHandler 0 "t" 0 999).1 = .ok none ∧
    (getResponseOp refusingEnv emptyPoolHandler 0 "t").2.calls = [] :=
  ⟨rfl, rfl, rfl, rfl, rfl⟩

/-- C7 amended: if the proxy pool is empty when any of the four dispatcher
operations is invoked, the operation returns no result (`None`) without
issuing any HTTP request, without changing the handler state and without
raising; the pool-exhausted `RuntimeError` is raised by `check`, not by the
dispatch operations. -/
theorem empty_pool_returns_none {J : Type} (env : Env J) (h : Handler)
    (now : Time) (targetUrl : String) (startB endB : Int)
    (hempty : h.proxies = []) :
    (getResponseOp env h now targetUrl).1 = .ok none ∧
    (getOp env h now targetUrl).1 = .ok none ∧
    (filesizeOp env h now targetUrl).1 = .ok none ∧
    (getFilepartOp env h now targetUrl startB endB).1 = .ok none ∧
    (getResponseOp env h now targetUrl).2 =
      { handler := h, calls := [], sleepTime := 0 } ∧
    (getOp env h now targetUrl).2 =
      { handler := h, calls := [], sleepTime := 0 } ∧
    (filesizeOp env h now targetUrl).2 =
      { handler := h, calls := [], sleepTime := 0 } ∧
    (getFilepartOp env h now targetUrl startB endB).2 =
      { handler := h, calls := [], sleepTime := 0 } := by
  have e1 := rtp_empty h env.net now ("get_response?url=" ++ env.qp targetUrl)
    hempty
  have e2 := rtp_empty h env.net now
    ("get_response_raw?url=" ++ env.qp targetUrl) hempty
  have e3 := rtp_empty h env.net now ("file_size?url=" ++ env.qp targetUrl)
    hempty
  have e4 := rtp_empty h env.net now
    ("filepart?url=" ++ env.qp targetUrl ++ "&start=" ++ toString startB ++
      "&end=" ++ toString endB) hempty
  refine ⟨?_, ?_, ?_, ?_, ?_, ?_, ?_, ?_⟩ <;>
    simp [getResponseOp, getOp, filesizeOp, getFilepartOp, e1, e2, e3, e4]

/-- Witness for the amended C7 at the concrete empty-pool handler. -/
theorem empty_pool_returns_none_witness :
    emptyPoolHandler.proxies = [] ∧
    (getOp refusingEnv emptyPoolHandler 0 "u").1 = .ok none :=
  ⟨rfl, (empty_pool_returns_none refusingEnv emptyPoolHandler 0 "u" 0 0
      rfl).2.1⟩

/-- C2: for a `get_response` call whose gateway request completes without
transport failure and without gateway-level 429: when the JSON payload
parses and its success flag is true and a body is present, the operation
returns the JSON-decoded body when it decodes and the body as plain text
otherwise; it returns no result when the gateway call failed (transport
error or gateway 429), when the payload does not parse, and when the
payload reports failure. -/
theorem fetch_success_payload_decoding {J : Type} (env : Env J) (h : Handler)
    (now : Time) (targetUrl : String) (hne : h.proxies ≠ []) :
    (∀ m, env.net (requestUrl h ("get_response?url=" ++ env.qp targetUrl)) =
        .exc m → (getResponseOp env h now targetUrl).1 = .ok none) ∧
    (∀ r, env.net (requestUrl h ("get_response?url=" ++ env.qp targetUrl)) =
        .resp r →
      (r.statusCode = 429 → (getResponseOp env h now targetUrl).1 = .ok none) ∧
      (r.statusCode ≠ 429 →
        (r.gwJson = none → (getResponseOp env h now targetUrl).1 = .ok none) ∧
        (∀ p, r.gwJson = some p →
          (p.success = false →
              (getResponseOp env h now targetUrl).1 = .ok none) ∧
          (p.success = true → ∀ txt, p.response = some txt →
            (∀ j, env.jsonDecode txt = some j →
              (getResponseOp env h now targetUrl).1 = .ok (some (Sum.inl j))) ∧
            (env.jsonDecode txt = none →
              (getResponseOp env h now targetUrl).1 =
                .ok (some (Sum.inr txt))))))) := by
  constructor
  · intro m hm
    obtain ⟨h1, _, _⟩ := rtp_fail h env.net now
      ("get_response?url=" ++ env.qp targetUrl) hne (Or.inl ⟨m, hm⟩)
    simp [getResponseOp, h1]
  · intro r hr
    constructor
    · intro h429
      obtain ⟨h1, _, _⟩ := rtp_fail h env.net now
        ("get_response?url=" ++ env.qp targetUrl) hne (Or.inr ⟨r, hr, h429⟩)
      simp [getResponseOp, h1]
    · intro h429
      have hE := rtp_ok h env.net now
        ("get_response?url=" ++ env.qp targetUrl) r hne hr h429
      constructor
      · intro hgw
        simp [getResponseOp, hE, hgw]
      · intro p hp
        constructor
        · intro hfail
          simp [getResponseOp, hE, hp, hfail]
        · intro hsucc txt htxt
          constructor
          · intro j hj
            simp [getResponseOp, hE, hp, hsucc, htxt, hj]
          · intro hj
            simp [getResponseOp, hE, hp, hsucc, htxt, hj]

/-- A gateway response carrying a successful JSON payload. -/
def okPayloadResp : Resp :=
  { statusCode := 200, text := "",
    gwJson := some { statusCode := 200, success := true,
                     response := some "body" },
    contentLength := none, contentLen := 0 }

/-- Environment whose gateway always answers `okPayloadResp` and whose
JSON decoder decodes exactly the string `body` to the value 7. -/
def jsonEnv : Env Nat :=
  { net := fun _ => .resp okPayloadResp, qp := id,
    jsonDecode := fun s => if s = "body" then some 7 else none }

/-- Witness for C2: a successful payload whose body decodes as JSON. -/
theorem fetch_success_payload_decoding_witness :
    cHandler.proxies ≠ [] ∧
    (getResponseOp jsonEnv cHandler 0 "t").1 = .ok (some (Sum.inl 7)) := by
  refine ⟨by decide, ?_⟩
  have H := fetch_success_payload_decoding jsonEnv cHandler 0 "t" (by decide)
  exact (((((H.2 okPayloadResp rfl).2 (by decide)).2 _ rfl).2 rfl "body"
    rfl).1) 7 (by decide)

/-- C5: `filesize` never raises; it returns no result when the gateway
call failed or answered a status other than 200/206, and on a 200/206 it
returns the body parsed by Python `int` after stripping whitespace, which
is no result exactly when the parse fails. -/
theorem filesize_returns_parsed_int {J : Type} (env : Env J) (h : Handler)
    (now : Time) (targetUrl : String) (hne : h.proxies ≠ []) :
    (∀ e : PyExc, (filesizeOp env h now targetUrl).1 ≠ .error e) ∧
    (∀ m, env.net (requestUrl h ("file_size?url=" ++ env.qp targetUrl)) =
        .exc m → (filesizeOp env h now targetUrl).1 = .ok none) ∧
    (∀ r, env.net (requestUrl h ("file_size?url=" ++ env.qp targetUrl)) =
        .resp r →
      (r.statusCode = 429 → (filesizeOp env h now targetUrl).1 = .ok none) ∧
      (r.statusCode ≠ 429 →
        (r.statusCode ≠ 200 ∧ r.statusCode ≠ 206 →
            (filesizeOp env h now targetUrl).1 = .ok none) ∧
        ((r.statusCode = 200 ∨ r.statusCode = 206) →
            (filesizeOp env h now targetUrl).1 =
              .ok (pyIntOfString (pyStrip r.text))))) := by
  refine ⟨?_, ?_, ?_⟩
  · intro e
    simp only [filesizeOp]
    rcases hc : (requestThroughProxy h env.net now
        ("file_size?url=" ++ env.qp targetUrl)).1 with _ | ⟨r0, i0⟩
    · simp [hc]
    · simp only [hc]
      split <;> simp
  · intro m hm
    obtain ⟨h1, _, _⟩ := rtp_fail h env.net now
      ("file_size?url=" ++ env.qp targetUrl) hne (Or.inl ⟨m, hm⟩)
    simp [filesizeOp, h1]
  · intro r hr
    constructor
    · intro h429
      obtain ⟨h1, _, _⟩ := rtp_fail h env.net now
        ("file_size?url=" ++ env.qp targetUrl) hne (Or.inr ⟨r, hr, h429⟩)
      simp [filesizeOp, h1]
    · intro h429
      have hE := rtp_ok h env.net now ("file_size?url=" ++ env.qp targetUrl)
        r hne hr h429
      constructor
      · intro hnot
        simp [filesizeOp, hE, hnot.1, hnot.2]
      · intro hok
        rcases hok with hok | hok <;> simp [filesizeOp, hE, hok]

/-- A 404 gateway response for the file-size probe. -/
def notFoundResp : Resp :=
  { statusCode := 404, text := "not found", gwJson := none,
    contentLength := none, contentLen := 0 }

/-- A 200 gateway response whose body is the decimal 12345 surrounded by
whitespace. -/
def sizeResp : Resp :=
  { statusCode := 200, text := " 12345 ", gwJson := none,
    contentLength := none, contentLen := 0 }

def notFoundEnv : Env Unit :=
  { net := fun _ => .resp notFoundResp, qp := id, jsonDecode := fun _ => none }

def sizeEnv : Env Unit :=
  { net := fun _ => .resp sizeResp, qp := id, jsonDecode := fun _ => none }

/-- Witness for C5: status 404 yields no result; status 200 with body
` 12345 ` yields exactly 12345. -/
theorem filesize_returns_parsed_int_witness :
    cHandler.proxies ≠ [] ∧
    (filesizeOp notFoundEnv cHandler 0 "t").1 = .ok none ∧
    (filesizeOp sizeEnv cHandler 0 "t").1 = .ok (some 12345) := by
  refine ⟨by decide, ?_, ?_⟩
  · exact (((filesize_returns_parsed_int notFoundEnv cHandler 0 "t"
      (by decide)).2.2 notFoundResp rfl).2 (by decide)).1 (by decide)
  · have hpr := (((filesize_returns_parsed_int sizeEnv cHandler 0 "t"
      (by decide)).2.2 sizeResp rfl).2 (by decide)).2 (Or.inl rfl)
    rw [hpr]
    exact congrArg Except.ok (by decide)

lemma loadProxyList_length (lines : List String) (port : Nat) :
    (loadProxyList lines port).length =
      ((lines.map pyStrip).filter (fun s => s ≠ "")).length := by
  induction lines with
  | nil => rfl
  | cons a t ih =>
      by_cases ha : pyStrip a = ""
      · simpa [loadProxyList, List.filterMap_cons, ha] using ih
      · simpa [loadProxyList, List.filterMap_cons, ha] using ih

lemma advanceTimes_proxies (h : Handler) (k : Nat) :
    (advanceTimes h k).proxies = h.proxies := by
  induction k with
  | zero => rfl
  | succ k ih => simp [advanceTimes, nextProxyIndex, ih]

lemma advanceTimes_currentIndex (h : Handler) (k : Nat) :
    (advanceTimes h (k + 1)).currentIndex = nthAdvanceIndex h k := rfl

lemma nthAdvanceIndex_eq (h : Handler) (k : Nat) :
    nthAdvanceIndex h k =
      (h.currentIndex + 1 + k) % (h.proxies.length : Int) := by
  induction k with
  | zero => simp [nthAdvanceIndex, advanceTimes, nextProxyIndex]
  | succ k ih =>
      have hstep : nthAdvanceIndex h (k + 1) =
          ((advanceTimes h (k + 1)).currentIndex + 1) %
            (h.proxies.length : Int) := by
        simp [nthAdvanceIndex, nextProxyIndex, advanceTimes_proxies]
      rw [hstep, advanceTimes_currentIndex, ih]
      have hcast : (h.currentIndex + 1 + ((k : Nat) + 1 : Nat) : Int) =
          (h.currentIndex + 1 + k) + 1 := by push_cast; ring
      rw [hcast, Int.add_emod (h.currentIndex + 1 + k) 1,
        Int.add_emod ((h.currentIndex + 1 + k) % (h.proxies.length : Int)) 1,
        Int.emod_emod_of_dvd _ dvd_rfl]

/-- C4: after loading a source with N greater than zero valid (nonempty
after stripping) proxy entries, the pool length is N, and single-threaded
round-robin advances from a fresh handler return index k mod N on the
k-th call; hence within any window of N consecutive advances no index
repeats, and the first N advances enumerate 0 to N-1. -/
theorem pool_size_and_round_robin (lines : List String) (port : Nat)
    (wt tmo : Time) (N : Nat) (_hN : 0 < N)
    (hcount : ((lines.map pyStrip).filter (fun s => s ≠ "")).length = N) :
    (loadProxyList lines port).length = N ∧
    (∀ k : Nat,
      nthAdvanceIndex (freshHandler (loadProxyList lines port) wt tmo) k =
        (k : Int) % (N : Int)) ∧
    (∀ j k : Nat, j < k → k < j + N →
      nthAdvanceIndex (freshHandler (loadProxyList lines port) wt tmo) j ≠
        nthAdvanceIndex (freshHandler (loadProxyList lines port) wt tmo) k) ∧
    (∀ i : Nat, i < N →
      nthAdvanceIndex (freshHandler (loadProxyList lines port) wt tmo) i =
        (i : Int)) := by
  have hlen : (loadProxyList lines port).length = N :=
    (loadProxyList_length lines port).trans hcount
  have hchar : ∀ k : Nat,
      nthAdvanceIndex (freshHandler (loadProxyList lines port) wt tmo) k =
        (k : Int) % (N : Int) := by
    intro k
    have := nthAdvanceIndex_eq
      (freshHandler (loadProxyList lines port) wt tmo) k
    simpa [freshHandler, hlen] using this
  refine ⟨hlen, hchar, ?_, ?_⟩
  · intro j k hjk hkN heq
    rw [hchar j, hchar k] at heq
    have hzero : ((j : Int) - (k : Int)) % (N : Int) = 0 :=
      Int.emod_eq_emod_iff_emod_sub_eq_zero.mp heq
    have hdvd : (N : Int) ∣ ((k : Int) - (j : Int)) := by
      have hneg := dvd_neg.mpr (Int.dvd_of_emod_eq_zero hzero)
      rwa [neg_sub] at hneg
    have hle : (N : Int) ≤ (k : Int) - (j : Int) :=
      Int.le_of_dvd (by omega) hdvd
    omega
  · intro i hi
    rw [hchar i]
    exact Int.emod_eq_of_lt (Int.ofNat_nonneg i) (by exact_mod_cast hi)

/-- Witness for C4 with two valid entries among three lines. -/
theorem pool_size_and_round_robin_witness :
    (0 < 2) ∧
    ((["10.0.0.1", "", "10.0.0.2:9000"].map pyStrip).filter
        (fun s => s ≠ "")).length = 2 ∧
    (loadProxyList ["10.0.0.1", "", "10.0.0.2:9000"] 8000).length = 2 ∧
    nthAdvanceIndex
      (freshHandler (loadProxyList ["10.0.0.1", "", "10.0.0.2:9000"] 8000)
        (1/10) 10) 1 = 1 :=
  have H := pool_size_and_round_robin ["10.0.0.1", "", "10.0.0.2:9000"] 8000
    (1/10) 10 2 (by decide) (by decide)
  ⟨by decide, by decide, H.1, H.2.2.2 1 (by decide)⟩

/-- Keep the elements whose position satisfies `p`, preserving order; the
reference shape for the pool after batch removal. -/
def survivors : (Nat → Bool) → List String → List String
  | _, [] => []
  | p, a :: t =>
      if p 0 then a :: survivors (fun i => p (i + 1)) t
      else survivors (fun i => p (i + 1)) t

lemma removeDescending_eq_foldr (ps : List String) (idxs : List Nat) :
    removeDescending ps idxs =
      idxs.foldr (fun i acc => acc.eraseIdx i) ps := by
  simp [removeDescending, List.foldl_reverse]

lemma foldr_eraseIdx_map_succ (idxs : List Nat) (a : String)
    (l : List String) :
    (idxs.map Nat.succ).foldr (fun i acc => acc.eraseIdx i) (a :: l) =
      a :: idxs.foldr (fun i acc => acc.eraseIdx i) l := by
  induction idxs with
  | nil => rfl
  | cons i t ih => simp [ih]

lemma filter_range_succ (q : Nat → Bool) (n : Nat) :
    ((List.range n).map Nat.succ).filter q =
      ((List.range n).filter (fun i => q (i + 1))).map Nat.succ := by
  rw [List.filter_map]
  rfl

lemma removeDescending_filter_range (p : Nat → Bool) (ps : List String) :
    removeDescending ps
        ((List.range ps.length).filter (fun i => !(p i))) =
      survivors p ps := by
  induction ps generalizing p with
  | nil => rfl
  | cons a t ih =>
      rw [removeDescending_eq_foldr, List.length_cons,
        List.range_succ_eq_map, List.filter_cons]
      by_cases hp : p 0
      · rw [if_neg (by simp [hp]), filter_range_succ,
          foldr_eraseIdx_map_succ]
        unfold survivors
        rw [if_pos hp, ← removeDescending_eq_foldr]
        exact congrArg (a :: ·) (ih (fun i => p (i + 1)))
      · rw [if_pos (by simp [hp]), filter_range_succ, List.foldr_cons,
          foldr_eraseIdx_map_succ, List.eraseIdx_cons_zero]
        unfold survivors
        rw [if_neg hp, ← removeDescending_eq_foldr]
        exact ih (fun i => p (i + 1))

lemma survivors_eq_nil_iff (p : Nat → Bool) (ps : List String) :
    survivors p ps = [] ↔ ∀ i < ps.length, p i = false := by
  induction ps generalizing p with
  | nil => simp [survivors]
  | cons a t ih =>
      by_cases hp : p 0
      · simp only [survivors, if_pos hp, List.length_cons]
        constructor
        · intro h
          exact absurd h (by simp)
        · intro h
          exact absurd (h 0 (by omega)) (by simp [hp])
      · simp only [survivors, if_neg hp, ih, List.length_cons]
        constructor
        · intro h i hi
          cases i with
          | zero => exact Bool.eq_false_iff.mpr (by simp [hp])
          | succ i => exact h i (by omega)
        · intro h i hi
          exact h (i + 1) (by omega)

/-- C6: the health check classifies index i as healthy iff the bare GET on
its base URL answers status 200 or 206 within the fixed 5 time-unit bound;
with the default `raise_exception=False` it removes exactly the failing
indices from the pool in one batch after the scan, preserving the relative
order of survivors, and raises the no-proxies-available error iff every
endpoint failed; the partial-failure error branch is disabled. -/
theorem healthcheck_classification_and_batch_removal
    (ps : List String) (net : Nat → Probe) :
    (∀ i, (checkSingle net i).1 = true ↔
      ((net i).arrival ≤ 5 ∧
        ((net i).outcome = some 200 ∨ (net i).outcome = some 206))) ∧
    (check ps net false).1 =
      survivors (fun i => (checkSingle net i).1) ps ∧
    ((check ps net false).2 = .error .noProxiesAvailable ↔
      ∀ i < ps.length, (checkSingle net i).1 = false) ∧
    (∀ fl, (check ps net false).2 ≠ .error (.proxiesNotWorking fl)) := by
  have hclass : ∀ i, (checkSingle net i).1 = true ↔
      ((net i).arrival ≤ 5 ∧
        ((net i).outcome = some 200 ∨ (net i).outcome = some 206)) := by
    intro i
    simp only [checkSingle]
    by_cases harr : 5 < (net i).arrival
    · rw [if_pos harr]
      simp only [not_le.mpr harr]
      simp
    · rw [if_neg harr]
      rcases hout : (net i).outcome with _ | s
      · simp [hout]
      · simp only [hout]
        by_cases hs : s = 200 ∨ s = 206
        · rw [if_pos hs]
          simp only [not_lt.mp harr]
          rcases hs with hs | hs <;> simp [hs]
        · rw [if_neg hs]
          push_neg at hs
          simp [hs.1, hs.2]
  by_cases hemp : (survivors (fun i => (checkSingle net i).1) ps).isEmpty
  · have hkey : check ps net false =
        (survivors (fun i => (checkSingle net i).1) ps,
         .error .noProxiesAvailable) := by
      simp only [check]
      rw [if_neg (by simp), removeDescending_filter_range, if_pos hemp]
    have hnil : survivors (fun i => (checkSingle net i).1) ps = [] :=
      List.isEmpty_iff.mp hemp
    refine ⟨hclass, by rw [hkey], ?_, ?_⟩
    · rw [hkey]
      exact iff_of_true rfl ((survivors_eq_nil_iff _ _).mp hnil)
    · intro fl
      rw [hkey]
      simp
  · have hkey : check ps net false =
        (survivors (fun i => (checkSingle net i).1) ps,
         .ok ((List.range ps.length).filter
           (fun i => !(checkSingle net i).1))) := by
      simp only [check]
      rw [if_neg (by simp), removeDescending_filter_range, if_neg hemp]
    have hnil : survivors (fun i => (checkSingle net i).1) ps ≠ [] := by
      simpa [List.isEmpty_iff] using hemp
    refine ⟨hclass, by rw [hkey], ?_, ?_⟩
    · rw [hkey]
      constructor
      · intro h
        exact absurd h (by simp)
      · intro h
        exact absurd ((survivors_eq_nil_iff _ _).mpr h) hnil
    · intro fl
      rw [hkey]
      simp

/-- A probe oracle on which every endpoint fails (connection error). -/
def failNet : Nat → Probe := fun _ => { arrival := 0, outcome := none }

/-- C10: when every endpoint fails the health probe (raise_exception left
False), the failed entries are all deleted from the pool and the
no-proxies-available error is raised afterwards, leaving the handler with
an empty pool; the pool state is not restored on this error. -/
theorem check_empties_pool_before_raising (ps : List String)
    (net : Nat → Probe)
    (hall : ∀ i < ps.length, (checkSingle net i).1 = false) :
    (check ps net false).1 = [] ∧
    (check ps net false).2 = .error .noProxiesAvailable := by
  have hsurv : survivors (fun i => (checkSingle net i).1) ps = [] :=
    (survivors_eq_nil_iff _ _).mpr hall
  have hpool : (check ps net false).1 =
      removeDescending ps ((List.range ps.length).filter
        (fun i => !(checkSingle net i).1)) := by
    simp only [check, Bool.false_eq_true, false_and, if_false]
    split <;> rfl
  have h1 : (check ps net false).1 = [] := by
    rw [hpool, removeDescending_filter_range, hsurv]
  refine ⟨h1, ?_⟩
  simp only [check, Bool.false_eq_true, false_and, if_false,
    removeDescending_filter_range, hsurv]
  rfl

/-- Witness for C10: a one-proxy pool whose only endpoint refuses the
probe. -/
theorem check_empties_pool_before_raising_witness :
    (∀ i < (["http://10.0.0.1:8000/"] : List String).length,
        (checkSingle failNet i).1 = false) ∧
    (check ["http://10.0.0.1:8000/"] failNet false).1 = [] ∧
    (check ["http://10.0.0.1:8000/"] failNet false).2 =
      .error .noProxiesAvailable :=
  ⟨by decide,
   check_empties_pool_before_raising ["http://10.0.0.1:8000/"] failNet
     (by decide)⟩

lemma mkChunks_length (S c : Nat) :
    (mkChunks S c).length = (S + c - 1) / c := by
  simp [mkChunks]

lemma mkChunks_getD (S c k : Nat) (hk : k < (S + c - 1) / c) :
    (mkChunks S c).getD k (0, 0) = (k * c, min S (k * c + c)) := by
  rw [List.getD_eq_getElem?_getD]
  simp [mkChunks, hk]

lemma mkChunks_mem_bounds (S c : Nat) (hc : 0 < c) :
    ∀ p ∈ mkChunks S c, p.1 < p.2 ∧ p.2 - p.1 ≤ c := by
  intro p hp
  simp only [mkChunks, List.mem_map, List.mem_range] at hp
  obtain ⟨k, hk, rfl⟩ := hp
  have h2 : (k + 1) * c ≤ S + c - 1 := (Nat.le_div_iff_mul_le hc).mp hk
  have h3 : (k + 1) * c = k * c + c := by ring
  constructor
  · simp only []
    omega
  · simp only []
    omega

lemma mkChunks_contiguous (S c : Nat) (hc : 0 < c) (k : Nat)
    (hk : k + 1 < (mkChunks S c).length) :
    ((mkChunks S c).getD (k + 1) (0, 0)).1 =
      ((mkChunks S c).getD k (0, 0)).2 := by
  rw [mkChunks_length] at hk
  rw [mkChunks_getD S c (k + 1) hk, mkChunks_getD S c k (by omega)]
  have h2 : (k + 2) * c ≤ S + c - 1 := (Nat.le_div_iff_mul_le hc).mp hk
  have e1 : (k + 2) * c = k * c + c + c := by ring
  have e2 : (k + 1) * c = k * c + c := by ring
  simp only []
  omega

lemma mkChunks_first_last (S c : Nat) (hc : 0 < c) (hS : 0 < S) :
    ((mkChunks S c).getD 0 (0, 0)).1 = 0 ∧
    ((mkChunks S c).getD ((mkChunks S c).length - 1) (0, 0)).2 = S := by
  have hpos : 0 < (S + c - 1) / c := Nat.div_pos (by omega) hc
  constructor
  · rw [mkChunks_getD S c 0 hpos]
    simp
  · rw [mkChunks_length]
    obtain ⟨m, hm⟩ : ∃ m, (S + c - 1) / c = m + 1 :=
      ⟨(S + c - 1) / c - 1, by omega⟩
    rw [hm, Nat.add_sub_cancel, mkChunks_getD S c m (by omega)]
    have hlt : S + c - 1 < (m + 2) * c :=
      (Nat.div_lt_iff_lt_mul hc).mp (by omega)
    have e1 : (m + 2) * c = m * c + c + c := by ring
    simp only []
    omega

/-- Total number of content bytes of the appended chunks; with the
destination opened in truncating mode this is the length of the file. -/
def sumLen (app : List ((Nat × Nat) × PartResp)) : Nat :=
  (app.map (fun x => x.2.contentLen)).sum

lemma chunkLoop_appended (net : PartNet) (maxRetry S cur : Nat)
    (chunks : List (Nat × Nat)) :
    ∀ (written : Nat) (app : List ((Nat × Nat) × PartResp)),
      (∀ x ∈ app, x.2.statusCode = 200 ∧
        x.2.contentLength = some ((x.1.2 - x.1.1 : Nat) : Int)) →
      ∀ x ∈ (chunkLoop net maxRetry S cur chunks written app).appended,
        x.2.statusCode = 200 ∧
        x.2.contentLength = some ((x.1.2 - x.1.1 : Nat) : Int) := by
  induction chunks with
  | nil =>
      intro written app happ x hx
      simp only [chunkLoop] at hx
      split at hx <;> exact happ x hx
  | cons ch rest ih =>
      intro written app happ x hx
      obtain ⟨s, e⟩ := ch
      simp only [chunkLoop] at hx
      by_cases hskip : s < cur
      · rw [if_pos hskip] at hx
        exact ih written app happ x hx
      · rw [if_neg hskip] at hx
        rcases hr : retryLoop (net s (e - 1)) none 0 maxRetry with _ | resp
        · simp only [hr] at hx
          exact happ x hx
        · simp only [hr] at hx
          by_cases h200 : resp.statusCode ≠ 200
          · rw [if_pos h200] at hx
            exact happ x hx
          · rw [if_neg h200] at hx
            rcases hcl : resp.contentLength with _ | cl
            · simp only [hcl] at hx
              exact happ x hx
            · simp only [hcl] at hx
              by_cases hclw : cl ≠ ((e - s : Nat) : Int)
              · rw [if_pos hclw] at hx
                exact happ x hx
              · rw [if_neg hclw] at hx
                refine ih _ _ ?_ x hx
                intro y hy
                rcases List.mem_append.mp hy with hy | hy
                · exact happ y hy
                · have hyy : y = ((s, e), resp) := by simpa using hy
                  subst hyy
                  constructor
                  · show resp.statusCode = 200
                    omega
                  · show resp.contentLength = some ((e - s : Nat) : Int)
                    rw [hcl]
                    congr 1
                    omega

lemma chunkLoop_disk (net : PartNet) (maxRetry S cur : Nat)
    (chunks : List (Nat × Nat)) :
    ∀ (written : Nat) (app : List ((Nat × Nat) × PartResp)),
      written = sumLen app →
      ((chunkLoop net maxRetry S cur chunks written app).outcome =
          .completed →
        (chunkLoop net maxRetry S cur chunks written app).diskLen =
          some S) ∧
      ((chunkLoop net maxRetry S cur chunks written app).outcome =
          .removedMismatch →
        (chunkLoop net maxRetry S cur chunks written app).diskLen = none) ∧
      ((chunkLoop net maxRetry S cur chunks written app).outcome =
          .aborted →
        (chunkLoop net maxRetry S cur chunks written app).diskLen =
          some (sumLen
            (chunkLoop net maxRetry S cur chunks written app).appended)) := by
  induction chunks with
  | nil =>
      intro written app hinv
      simp only [chunkLoop]
      by_cases hne : written ≠ S
      · rw [if_pos hne]
        exact ⟨by intro h; simp at h, by intro _; rfl,
          by intro h; simp at h⟩
      · rw [if_neg hne]
        exact ⟨by intro _; exact congrArg some (by omega),
          by intro h; simp at h, by intro h; simp at h⟩
  | cons ch rest ih =>
      intro written app hinv
      obtain ⟨s, e⟩ := ch
      simp only [chunkLoop]
      by_cases hskip : s < cur
      · rw [if_pos hskip]
        exact ih written app hinv
      · rw [if_neg hskip]
        rcases hr : retryLoop (net s (e - 1)) none 0 maxRetry with _ | resp
        · simp only [hr]
          exact ⟨by intro h; simp at h, by intro h; simp at h,
            by intro _; exact congrArg some hinv⟩
        · simp only [hr]
          by_cases h200 : resp.statusCode ≠ 200
          · rw [if_pos h200]
            exact ⟨by intro h; simp at h, by intro h; simp at h,
              by intro _; exact congrArg some hinv⟩
          · rw [if_neg h200]
            rcases hcl : resp.contentLength with _ | cl
            · simp only [hcl]
              exact ⟨by intro h; simp at h, by intro h; simp at h,
                by intro _; exact congrArg some hinv⟩
            · simp only [hcl]
              by_cases hclw : cl ≠ ((e - s : Nat) : Int)
              · rw [if_pos hclw]
                exact ⟨by intro h; simp at h, by intro h; simp at h,
                  by intro _; exact congrArg some hinv⟩
              · rw [if_neg hclw]
                refine ih _ _ ?_
                simp [sumLen, hinv]

/-- C8: for the split-download branch with chunk size c greater than zero
and probed size S: the chunk list partitions the interval from 0 to S
contiguously with positive widths of at most c; a chunk (s, e) is fetched
as `get_filepart(url, s, e - 1)` and appended only when the response
status is 200 and its Content-Length equals e - s, which is the requested
inclusive width (end - start + 1); a completed download has exactly S
bytes on disk; a final-size mismatch removes the file; and an abort after
a chunk failure leaves on disk exactly the bytes of the previously
verified chunks (the destination was opened truncating, so the partial
output is the truncated prefix of verified chunks). -/
theorem chunked_download_verification (net : PartNet)
    (maxRetry S c : Nat) (existingLen : Option Nat) (hc : 0 < c) :
    (∀ p ∈ mkChunks S c, p.1 < p.2 ∧ p.2 - p.1 ≤ c) ∧
    (∀ k, k + 1 < (mkChunks S c).length →
      ((mkChunks S c).getD (k + 1) (0, 0)).1 =
        ((mkChunks S c).getD k (0, 0)).2) ∧
    (0 < S → ((mkChunks S c).getD 0 (0, 0)).1 = 0 ∧
      ((mkChunks S c).getD ((mkChunks S c).length - 1) (0, 0)).2 = S) ∧
    (∀ x ∈ (downloadSplit net maxRetry S c existingLen).appended,
      x.2.statusCode = 200 ∧
      x.2.contentLength = some ((x.1.2 - x.1.1 : Nat) : Int)) ∧
    ((downloadSplit net maxRetry S c existingLen).outcome = .completed →
      (downloadSplit net maxRetry S c existingLen).diskLen = some S) ∧
    ((downloadSplit net maxRetry S c existingLen).outcome =
        .removedMismatch →
      (downloadSplit net maxRetry S c existingLen).diskLen = none) ∧
    ((downloadSplit net maxRetry S c existingLen).outcome = .aborted →
      (downloadSplit net maxRetry S c existingLen).diskLen =
        some (sumLen (downloadSplit net maxRetry S c existingLen).appended)) := by
  obtain ⟨d1, d2, d3⟩ := chunkLoop_disk net maxRetry S
    (existingLen.getD 0) (mkChunks S c) 0 [] rfl
  exact ⟨mkChunks_mem_bounds S c hc, mkChunks_contiguous S c hc,
    fun hS => mkChunks_first_last S c hc hS,
    chunkLoop_appended net maxRetry S (existingLen.getD 0) (mkChunks S c) 0
      [] (by simp), d1, d2, d3⟩

/-- A gateway returning exactly the requested inclusive range. -/
def clOkNet : PartNet := fun s e _ =>
  some { statusCode := 200, contentLength := some ((e + 1 - s : Nat) : Int),
         contentLen := e + 1 - s }

/-- A gateway that always reports Content-Length 999. -/
def clShortNet : PartNet := fun _ _ _ =>
  some { statusCode := 200, contentLength := some 999, contentLen := 999 }

/-- Witness for C8: size 1000, one chunk of width 1000 requested as range
0 to 999; Content-Length 1000 completes the file, Content-Length 999 is a
verification failure that aborts with nothing appended. -/
theorem chunked_download_verification_witness :
    0 < 1000 ∧
    (downloadSplit clOkNet 10 1000 1000 none).outcome = .completed ∧
    (downloadSplit clOkNet 10 1000 1000 none).diskLen = some 1000 ∧
    (downloadSplit clShortNet 10 1000 1000 none).outcome = .aborted ∧
    (downloadSplit clShortNet 10 1000 1000 none).diskLen = some 0 :=
  ⟨by decide, by decide,
   (chunked_download_verification clOkNet 10 1000 1000 none
     (by decide)).2.2.2.2.1 (by decide),
   by decide, by decide⟩

/-- The pacing-gate guarantee the specification asserts: whenever two
concurrent holders of the same index 0 both complete `_wait_until_allowed`
under a schedule, their pass times are at least the wait interval apart
(the second holder cannot pass the gate for the same slot). -/
def pacingGateRespected (waitTime : Time) (sched : List Bool) : Prop :=
  ∀ a b : Time,
    (runSched waitTime sched
      { ledger := [], clock := 0, tA := .start, tB := .start }).tA =
        .done a →
    (runSched waitTime sched
      { ledger := [], clock := 0, tA := .start, tB := .start }).tB =
        .done b →
    waitTime ≤ |a - b|

lemma emod_add_one (x N : Int) : (x % N + 1) % N = (x + 1) % N := by
  conv_rhs => rw [Int.add_emod]
  rw [Int.add_emod (x % N) 1, Int.emod_emod_of_dvd _ dvd_rfl]

/-- C9 counterexample: with wait interval 1, the schedule in which both
threads execute their ledger read before either executes its commit lets
both pass the gate at time 1, zero time apart: the eligibility check and
the commit of `_wait_until_allowed` are two separate `ThreadSafeDict`
operations with a sleep between them, so a second concurrent holder of
the same index does bypass the pacing gate. -/
theorem pacing_gate_bypass_counterexample :
    ¬ pacingGateRespected 1 [true, false, true, true, false, false] := by
  intro hgate
  have h := hgate 1 1
    (by norm_num [runSched, stepThread, Ledger.getT, Ledger.setT])
    (by norm_num [runSched, stepThread, Ledger.getT, Ledger.setT])
  norm_num at h

/-- C9 amended: two concurrent `_next_proxy_index` calls are serialized by
the index lock (each call is one atomic step), so in either interleaving
they return the two successive round-robin indices and, when the pool has
at least two entries, never the same index; the pacing gate of
`_wait_until_allowed`, however, is not atomic: its read and its commit are
separate lock acquisitions, and there is a schedule under which two
concurrent holders of the same index both pass the gate for the same
slot. -/
theorem next_serialized_but_gate_not_atomic (h : Handler)
    (_hlen : 0 < h.proxies.length) :
    ((runTwoNext true h).1 =
        (h.currentIndex + 1) % (h.proxies.length : Int) ∧
      (runTwoNext true h).2.1 =
        (h.currentIndex + 2) % (h.proxies.length : Int) ∧
      (runTwoNext false h).2.1 =
        (h.currentIndex + 1) % (h.proxies.length : Int) ∧
      (runTwoNext false h).1 =
        (h.currentIndex + 2) % (h.proxies.length : Int)) ∧
    (2 ≤ h.proxies.length →
      (runTwoNext true h).1 ≠ (runTwoNext true h).2.1 ∧
      (runTwoNext false h).1 ≠ (runTwoNext false h).2.1) ∧
    ¬ pacingGateRespected 1 [true, false, true, true, false, false] := by
  have hsucc : ∀ c : Int,
      ((c + 1) % (h.proxies.length : Int) + 1) % (h.proxies.length : Int) =
        (c + 2) % (h.proxies.length : Int) := by
    intro c
    rw [emod_add_one]
    ring_nf
  have hne : 2 ≤ h.proxies.length →
      (h.currentIndex + 1) % (h.proxies.length : Int) ≠
        (h.currentIndex + 2) % (h.proxies.length : Int) := by
    intro h2 heq
    have hzero := Int.emod_eq_emod_iff_emod_sub_eq_zero.mp heq
    have hdvd := Int.dvd_of_emod_eq_zero hzero
    have hdvd1 : (h.proxies.length : Int) ∣ 1 := by
      have : (h.currentIndex + 1 - (h.currentIndex + 2) : Int) = -1 := by ring
      rw [this] at hdvd
      exact (dvd_neg.mp hdvd)
    have := Int.le_of_dvd one_pos hdvd1
    omega
  refine ⟨?_, ?_, ?_⟩
  · refine ⟨rfl, ?_, rfl, ?_⟩ <;>
      simp [runTwoNext, nextProxyIndex, hsucc]
  · intro h2
    have hA : (runTwoNext true h).1 =
        (h.currentIndex + 1) % (h.proxies.length : Int) := rfl
    have hB : (runTwoNext true h).2.1 =
        (h.currentIndex + 2) % (h.proxies.length : Int) := by
      simp [runTwoNext, nextProxyIndex, hsucc]
    have hA' : (runTwoNext false h).2.1 =
        (h.currentIndex + 1) % (h.proxies.length : Int) := rfl
    have hB' : (runTwoNext false h).1 =
        (h.currentIndex + 2) % (h.proxies.length : Int) := by
      simp [runTwoNext, nextProxyIndex, hsucc]
    rw [hA, hB, hA', hB']
    exact ⟨hne h2, fun he => hne h2 he.symm⟩
  · intro hgate
    have hcontra := hgate 1 1
      (by norm_num [runSched, stepThread, Ledger.getT, Ledger.setT])
      (by norm_num [runSched, stepThread, Ledger.getT, Ledger.setT])
    norm_num at hcontra

/-- A two-proxy handler used by the C9 witness. -/
def twoProxyHandler : Handler :=
  { proxies := ["http://10.0.0.1:8000/", "http://10.0.0.2:8000/"],
    commitTime := [], currentIndex := -1, waitTime := 1, timeout := 10 }

/-- Witness for the amended C9 at a concrete two-proxy handler. -/
theorem next_serialized_but_gate_not_atomic_witness :
    0 < twoProxyHandler.proxies.length ∧
    (runTwoNext true twoProxyHandler).1 = 0 ∧
    (runTwoNext true twoProxyHandler).2.1 = 1 := by
  have H := next_serialized_but_gate_not_atomic twoProxyHandler (by decide)
  exact ⟨by decide, by rw [H.1.1]; decide, by rw [H.1.2.1]; decide⟩

end BooruCrawl
